import Mathlib

/-!
Verification of the Iris-Mini OTA update engine (SLWRTHNU/Iris-Mini).

The Python sources are shallowly embedded as pure Lean functions.

The filesystem is modelled as a flat map from path to file contents
(directories carry no content and mkdir failures are swallowed by the
source, so they are not modelled). Every embedded operation returns the
list of observable events it performs — filesystem writes, removes,
renames, and HTTP GET requests — and the filesystem effect of a run is
obtained by folding those events over the initial state. Network and
JSON parsing are oracles passed in as parameters: a response oracle maps
a URL to an HTTP response (status and body) or to a raised exception,
and a parse oracle maps a body to an optional parsed document.
-/

namespace IrisMini

/-- Flat filesystem: path to file contents ("bytes" as a string). -/
abbrev FS := String → Option String

/-- One byte-level read of a whole file, as the embedded code does. -/
def FS.read (fs : FS) (p : String) : Option String := fs p

/-- open(p, "w") followed by a full write: replaces the file's contents. -/
def FS.write (fs : FS) (p c : String) : FS :=
  fun q => if q == p then some c else fs q

/-- os.remove. -/
def FS.remove (fs : FS) (p : String) : FS :=
  fun q => if q == p then none else fs q

/-- os.rename: moves the contents of src to dst, overwriting dst. -/
def FS.rename (fs : FS) (src dst : String) : FS :=
  match fs src with
  | none => fs
  | some c => FS.write (FS.remove fs src) dst c

/-- Observable events of a run: filesystem mutations and HTTP requests. -/
inductive Ev where
  | fsWrite (path content : String)
  | fsRemove (path : String)
  | fsRename (src dst : String)
  | httpGet (url : String)
deriving DecidableEq

def Ev.isRename : Ev → Bool
  | .fsRename _ _ => true
  | _ => false

def Ev.isGet : Ev → Bool
  | .httpGet _ => true
  | _ => false

def Ev.isFsMutation : Ev → Bool
  | .httpGet _ => false
  | _ => true

/-- Whether a single event can change the file at path p. -/
def Ev.touches : Ev → String → Bool
  | .fsWrite q _, p => q == p
  | .fsRemove q, p => q == p
  | .fsRename s d, p => s == p || d == p
  | .httpGet _, _ => false

def FS.applyEv (fs : FS) : Ev → FS
  | .fsWrite p c => fs.write p c
  | .fsRemove p => fs.remove p
  | .fsRename s d => fs.rename s d
  | .httpGet _ => fs

def FS.applyEvs (fs : FS) (evs : List Ev) : FS := evs.foldl FS.applyEv fs

/-- An HTTP GET outcome as seen by the MicroPython code: a response with a
status code and body, or a raised exception (network / DNS / SSL error). -/
inductive HttpResp where
  | resp (status : Nat) (body : String)
  | exc
deriving DecidableEq

/-- A network oracle: what requests.get returns for each URL. -/
abbrev Net := String → HttpResp

/-! Constants from src/bootloader.py. -/

def GITHUB_USER : String := "SLWRTHNU"
def GITHUB_REPO : String := "Iris-Mini"
def GITHUB_BRANCH : String := "main"

def RAW_BASE_URL : String :=
  "https://raw.githubusercontent.com/" ++ GITHUB_USER ++ "/" ++ GITHUB_REPO
    ++ "/" ++ GITHUB_BRANCH ++ "/"

def VERSIONS_URL : String := RAW_BASE_URL ++ "versions.json"

def CONTROL_URL : String :=
  "https://raw.githubusercontent.com/" ++ GITHUB_USER ++ "/" ++ GITHUB_REPO
    ++ "/" ++ GITHUB_BRANCH ++ "/" ++ "control.json"

def LOCAL_VERSION_FILE : String := "local_version.txt"
def DEVICE_ID_FILE : String := "device_id.txt"
def CONTROL_HASH_FILE : String := "last_control_hash.txt"

/-! Data model: the parsed versions.json and control.json documents.
A missing JSON key is an Option none, matching dict.get with a default. -/

/-- One element of the files[] list of versions.json. path is optional
because the source reads entry["path"] under a try and treats a missing
key as a bad entry; target is optional because the source uses
entry.get("target", remote_path). -/
structure FileEntry where
  path : Option String
  target : Option String
deriving DecidableEq

/-- Parsed versions.json: version is vers_data.get("version", "0.0.0"),
files is vers_data.get("files", []). -/
structure VersData where
  version : Option String
  files : List FileEntry
deriving DecidableEq

/-- Parsed control.json as read by bootloader.check_remote_commands. -/
structure ControlDoc where
  reboot_ids : List String
  force_update_ids : List String
deriving DecidableEq

/-- vers_data.get("version", "0.0.0"). -/
def VersData.versionOf (v : VersData) : String := v.version.getD "0.0.0"

/-- The target path the update loop uses for an entry with remote path rp:
entry.get("target", remote_path). -/
def FileEntry.targetFor (e : FileEntry) (rp : String) : String := e.target.getD rp

/-- The target paths an update loop over these entries can write to
(entries with no "path" key abort the loop and write nothing). -/
def targetsOf (es : List FileEntry) : List String :=
  es.filterMap (fun e => e.path.map (fun rp => e.targetFor rp))

/-- Python str.strip() with no argument: drop leading and trailing
whitespace. Implemented over the character list so that it evaluates by
kernel reduction. -/
def pyStrip (s : String) : String :=
  ⟨((s.data.dropWhile Char.isWhitespace).reverse.dropWhile
      Char.isWhitespace).reverse⟩

/-! Embeddings of the functions of src/bootloader.py. -/

/-- load_local_version: read LOCAL_VERSION_FILE, strip, return the
stripped text if non-empty, else "0.0.0" (also on OSError / missing file). -/
def load_local_version (fs : FS) : String :=
  match FS.read fs LOCAL_VERSION_FILE with
  | some s => if pyStrip s ≠ "" then pyStrip s else "0.0.0"
  | none => "0.0.0"

/-- save_local_version: a single direct open(LOCAL_VERSION_FILE, "w") and
write of the version string — its event trace. -/
def save_local_version (version_str : String) : List Ev :=
  [Ev.fsWrite LOCAL_VERSION_FILE version_str]

/-- fetch_versions_json: GET VERSIONS_URL; on status 200 parse the JSON
body (parse oracle; a ValueError gives none), on any other status or on a
raised exception return None. Returns the event trace and the result. -/
def fetch_versions_json (net : Net) (parse : String → Option VersData) :
    List Ev × Option VersData :=
  ([Ev.httpGet VERSIONS_URL],
    match net VERSIONS_URL with
    | .exc => none
    | .resp status body => if status == 200 then parse body else none)

/-- download_file: GET RAW_BASE_URL + remote_path; on any non-200 status
or exception return False having written nothing; on 200 write the body
directly to target_path (after ensure_dirs_for, which has no effect on
file contents) and return True. -/
def download_file (net : Net) (remote_path target_path : String) :
    List Ev × Bool :=
  match net (RAW_BASE_URL ++ remote_path) with
  | .exc => ([Ev.httpGet (RAW_BASE_URL ++ remote_path)], false)
  | .resp status content =>
    if status == 200 then
      ([Ev.httpGet (RAW_BASE_URL ++ remote_path),
        Ev.fsWrite target_path content], true)
    else
      ([Ev.httpGet (RAW_BASE_URL ++ remote_path)], false)

/-- The for-entry-in-files loop of perform_update: read entry["path"]
(a missing key is a bad entry: return False), compute
entry.get("target", remote_path), call download_file, and abort on the
first failure. Returns the accumulated event trace and the success flag. -/
def update_loop (net : Net) : List FileEntry → List Ev × Bool
  | [] => ([], true)
  | e :: rest =>
    match e.path with
    | none => ([], false)
    | some rp =>
      let dl := download_file net rp (e.targetFor rp)
      if dl.2 then
        let tail := update_loop net rest
        (dl.1 ++ tail.1, tail.2)
      else
        (dl.1, false)

/-- Result of perform_update: True (version already matches, no update
needed), False (bad manifest or a download failed), or the
never-returning save_local_version + machine.reset() tail. -/
inductive UpdateResult where
  | noUpdate
  | failed
  | resetAfterUpdate
deriving DecidableEq

/-- perform_update: compare the manifest version to the local version by
pure string equality; if equal return True at once. Otherwise require a
non-empty files[] list, run the download loop aborting on first failure,
and on full success persist the new version and hard-reset. -/
def perform_update (net : Net) (fs : FS) (v : VersData) :
    List Ev × UpdateResult :=
  let local_version := load_local_version fs
  let remote_version := v.versionOf
  if remote_version == local_version then
    ([], .noUpdate)
  else if v.files.isEmpty then
    ([], .failed)
  else
    let loop := update_loop net v.files
    if loop.2 then
      (loop.1 ++ save_local_version remote_version, .resetAfterUpdate)
    else
      (loop.1, .failed)

/-- get_or_create_device_id: read DEVICE_ID_FILE, strip, and return the
text if non-empty. Otherwise derive an id from machine.unique_id (a
hardware value, passed in as the hwId parameter; "0000" on failure),
write it to DEVICE_ID_FILE (a write failure is logged and swallowed) and
return it. -/
def get_or_create_device_id (hwId : String) (fs : FS) : List Ev × String :=
  match FS.read fs DEVICE_ID_FILE with
  | some s =>
    if pyStrip s ≠ "" then ([], pyStrip s)
    else ([Ev.fsWrite DEVICE_ID_FILE hwId], hwId)
  | none => ([Ev.fsWrite DEVICE_ID_FILE hwId], hwId)

/-- How a run of check_remote_commands ends: fall through with no action,
machine.reset() from the reboot branch, or os.remove(LOCAL_VERSION_FILE)
followed by machine.reset() from the force-update branch. -/
inductive CtrlOutcome where
  | noAction
  | rebooted
  | forceUpdated
deriving DecidableEq

/-- check_remote_commands: obtain the device id, fetch control.json
(the ctrl parameter is its parsed body, none on a non-200 status, raised
exception or parse failure — each makes the function return with no
action). If the id is listed in reboot_ids, hard-reset at once; else if
listed in force_update_ids, delete LOCAL_VERSION_FILE and hard-reset. -/
def check_remote_commands (hwId : String) (ctrl : Option ControlDoc)
    (fs : FS) : List Ev × CtrlOutcome :=
  let idStep := get_or_create_device_id hwId fs
  let device_id := idStep.2
  if device_id == "" then (idStep.1, .noAction)
  else
    let preEvs := idStep.1 ++ [Ev.httpGet CONTROL_URL]
    let outcome : CtrlOutcome :=
      match ctrl with
      | none => .noAction
      | some data =>
        if data.reboot_ids.contains device_id then .rebooted
        else if data.force_update_ids.contains device_id then .forceUpdated
        else .noAction
    match outcome with
    | .forceUpdated => (preEvs ++ [Ev.fsRemove LOCAL_VERSION_FILE], outcome)
    | _ => (preEvs, outcome)

/-- How bootloader.main ends: control passes to app_main (run_app_main),
or a successful perform_update has hard-reset the device. -/
inductive BootOutcome where
  | runApp
  | resetAfterUpdate
deriving DecidableEq

/-- bootloader.main, the OTA decision path: LCD drawing only reads the
display and status files, so it contributes no events; Wi-Fi credentials
come from config.py (the wifi parameter) and connect_wifi from the
network layer (the wifiOk parameter). With no credentials, or a failed
connect, app_main runs directly. Otherwise fetch versions.json; a None
result runs app_main; a manifest runs perform_update, whose False result
also falls through to app_main and whose success never returns. -/
def bl_main (wifi : Option (String × String)) (wifiOk : Bool) (net : Net)
    (parse : String → Option VersData) (fs : FS) : List Ev × BootOutcome :=
  match wifi with
  | none => ([], .runApp)
  | some _ =>
    if !wifiOk then ([], .runApp)
    else
      let fetched := fetch_versions_json net parse
      match fetched.2 with
      | none => (fetched.1, .runApp)
      | some vers_data =>
        let upd := perform_update net (FS.applyEvs fs fetched.1) vers_data
        match upd.2 with
        | .resetAfterUpdate => (fetched.1 ++ upd.1, .resetAfterUpdate)
        | _ => (fetched.1 ++ upd.1, .runApp)

/-! Embedding of src/bootloader.new.py (the staged next-generation
bootloader source shipped in the repository). -/

/-- apply_staged_bootloader_if_present: if "bootloader.py.next" is in
os.listdir(), os.rename it onto "bootloader.py" and machine.reset().
Returns the events and whether the reset fired. -/
def apply_staged_bootloader_if_present (fs : FS) : List Ev × Bool :=
  if (FS.read fs "bootloader.py.next").isSome then
    ([Ev.fsRename "bootloader.py.next" "bootloader.py"], true)
  else
    ([], false)

/-- How bootloader.new.py's main begins or ends. -/
inductive BnewOutcome where
  | stagedReset
  | continued
deriving DecidableEq

/-- bootloader.new.py main: apply_staged_bootloader_if_present runs first,
before any other logic; if it fires, machine.reset() stops the run and
nothing else executes. The remainder of main (portal check, Wi-Fi,
update, app) is abstracted as the rest parameter, which receives the
filesystem left by the first step. -/
def bnew_main (rest : FS → List Ev × BnewOutcome) (fs : FS) :
    List Ev × BnewOutcome :=
  let staged := apply_staged_bootloader_if_present fs
  if staged.2 then (staged.1, .stagedReset)
  else
    let r := rest (FS.applyEvs fs staged.1)
    (staged.1 ++ r.1, r.2)

/-! Embedding of src/control_poll.py. -/

/-- Parsed control.json as read by control_poll.tick: the declared "rev"
field (data.get("rev", "")) and reboot_ids. -/
structure CtrlRev where
  rev : String
  reboot_ids : List String
deriving DecidableEq

/-- LAST_REBOOT_REV_FILE of control_poll.py (same path as the
bootloader's CONTROL_HASH_FILE). -/
def LAST_REBOOT_REV_FILE : String := "last_control_hash.txt"

/-- control_poll._get_last_reboot_rev: read the marker file and strip;
"" on any exception / missing file. -/
def getLastRebootRev (fs : FS) : String :=
  pyStrip ((FS.read fs LAST_REBOOT_REV_FILE).getD "")

/-- control_poll._save_reboot_rev: strip the revision and write it to
both last_control_hash.txt and local_version.txt. -/
def saveRebootRev (rev : String) : List Ev :=
  [Ev.fsWrite LAST_REBOOT_REV_FILE (pyStrip rev),
   Ev.fsWrite "local_version.txt" (pyStrip rev)]

/-- control_poll._get_device_id: read device_id.txt; "N/A" on exception. -/
def pollDeviceId (fs : FS) : String :=
  (FS.read fs DEVICE_ID_FILE).getD "N/A"

/-- How one control_poll.tick poll ends: no action, a watchdog-forced
reboot, or the reboot cancelled because the verify read-back failed. -/
inductive TickOutcome where
  | noAction
  | rebooted
  | writeFailCancelled
deriving DecidableEq

/-- The command-handling core of control_poll.tick (the rate limiter and
Wi-Fi guard return early with no action and no events; the doc parameter
is fetch_control_json's result, none on failure). If this device is in
reboot_ids and the stripped declared revision is non-empty and differs
from the persisted marker, persist the new revision, read it back to
verify, and only then force the watchdog reboot. -/
def tick (doc : Option CtrlRev) (fs : FS) : List Ev × TickOutcome :=
  match doc with
  | none => ([], .noAction)
  | some data =>
    let my_id := pyStrip (pollDeviceId fs)
    let remote_rev := pyStrip data.rev
    let last_rev := getLastRebootRev fs
    if data.reboot_ids.contains my_id then
      if remote_rev ≠ "" ∧ remote_rev ≠ last_rev then
        let evs := saveRebootRev remote_rev
        if getLastRebootRev (FS.applyEvs fs evs) == remote_rev then
          (evs, .rebooted)
        else
          (evs, .writeFailCancelled)
      else ([], .noAction)
    else ([], .noAction)

/-- Poll tick n times in a row against the same fetched document (each
reboot persists the filesystem, so the next boot's poll sees the state
the previous tick left), counting how many polls fire the reboot. -/
def tickFireCount (doc : Option CtrlRev) : Nat → FS → Nat
  | 0, _ => 0
  | n + 1, fs =>
    let step := tick doc fs
    (if step.2 = TickOutcome.rebooted then 1 else 0)
      + tickFireCount doc n (FS.applyEvs fs step.1)

/-! Definitions written from the spec's words, for comparison with the
code (refinement checks); they are not translations of the source. -/

/-- Modelled from the spec: the protected set — "the update engine's own
code, credentials, the device identity file, the local version marker,
the display driver". -/
def spec_protected_set : List String :=
  ["bootloader.py", "config.py", "device_id.txt", "local_version.txt",
   "Pico_LCD_1_8.py"]

/-- Modelled from the spec: "the last path segment of remotePath" — the
characters after the last slash (the whole string when there is none).
Implemented over the character list so that it evaluates by kernel
reduction. -/
def spec_last_segment (rp : String) : String :=
  ⟨(rp.data.reverse.takeWhile (fun c => c ≠ '/')).reverse⟩

/-! Boolean oracles about downloads, used as decidable hypotheses. -/

/-- Whether the GET for remote path p succeeds with status 200. -/
def dl_status_ok (net : Net) (p : String) : Bool :=
  match net (RAW_BASE_URL ++ p) with
  | .resp s _ => s == 200
  | .exc => false

/-- Whether processing this manifest entry succeeds: the entry has a
"path" key and its download returns 200. -/
def entry_dl_ok (net : Net) (e : FileEntry) : Bool :=
  match e.path with
  | some p => dl_status_ok net p
  | none => false

/-! Concrete fixtures used by witnesses and counterexamples. -/

/-- A device filesystem before an update: app files, version marker,
device id, bootloader code. -/
def fsA : FS := fun p =>
  if p == "local_version.txt" then some "1.0.0"
  else if p == "device_id.txt" then some "DEV1"
  else if p == "app_main.py" then some "OLD-APP"
  else if p == "helper.py" then some "OLD-HELPER"
  else if p == "bootloader.py" then some "OLD-BOOT"
  else none

/-- A network where every request succeeds with body "NEW". -/
def netOK : Net := fun _ => HttpResp.resp 200 "NEW"

/-- A network where the download of helper.py answers 404 and every
other request succeeds. -/
def netFailHelper : Net := fun u =>
  if u == RAW_BASE_URL ++ "helper.py" then HttpResp.resp 404 "missing"
  else HttpResp.resp 200 "NEW"

/-- Manifest version 1.0.1 shipping app_main.py then helper.py, with no
explicit targets. -/
def versA : VersData :=
  { version := some "1.0.1",
    files := [{ path := some "app_main.py", target := none },
              { path := some "helper.py", target := none }] }

/-- A manifest whose only entry targets the update engine's own code. -/
def versProt : VersData :=
  { version := some "1.0.1",
    files := [{ path := some "bootloader.py", target := none }] }

/-- A manifest whose version equals the fixture filesystem's local
version, so no update is needed. -/
def versSame : VersData :=
  { version := some "1.0.0",
    files := [{ path := some "app_main.py", target := none }] }

/-- A parse oracle that recognises one body as the no-update manifest. -/
def parseSame : String → Option VersData :=
  fun b => if b == "BODY-SAME" then some versSame else none

/-- A network that serves the no-update manifest body for versions.json. -/
def netSame : Net := fun u =>
  if u == VERSIONS_URL then HttpResp.resp 200 "BODY-SAME"
  else HttpResp.resp 200 "NEW"

/-- A control document that keeps DEV1 listed for reboot. -/
def ctrlReboot : ControlDoc :=
  { reboot_ids := ["DEV1"], force_update_ids := [] }

/-- A control document that force-updates DEV1. -/
def ctrlForce : ControlDoc :=
  { reboot_ids := [], force_update_ids := ["DEV1"] }

/-- A control_poll document with a fresh revision targeting DEV1. -/
def ctrlRev1 : CtrlRev := { rev := "h1", reboot_ids := ["DEV1"] }

/-- A filesystem holding a staged replacement of the bootloader. -/
def fsStaged : FS := fun p =>
  if p == "bootloader.py" then some "OLD-BOOT"
  else if p == "bootloader.py.next" then some "NEW-BOOT"
  else none

/-- A network whose every response is a 404. -/
def net404 : Net := fun _ => HttpResp.resp 404 "not found"

/-- The failure modes of the manifest fetch, as a decidable oracle: a
non-200 status, a body the JSON parser rejects, or a raised network
exception. -/
def fetch_fails (net : Net) (parse : String → Option VersData) : Bool :=
  match net VERSIONS_URL with
  | .exc => true
  | .resp s b => !(s == 200) || (parse b).isNone

/-! Basic lemmas about the filesystem model. -/

theorem FS.read_write_self (fs : FS) (p c : String) :
    FS.read (FS.write fs p c) p = some c := by
  simp [FS.read, FS.write]

theorem FS.read_write_ne (fs : FS) (p c q : String) (h : q ≠ p) :
    FS.read (FS.write fs p c) q = FS.read fs q := by
  simp [FS.read, FS.write, h]

theorem FS.read_remove_self (fs : FS) (p : String) :
    FS.read (FS.remove fs p) p = none := by
  simp [FS.read, FS.remove]

theorem FS.read_remove_ne (fs : FS) (p q : String) (h : q ≠ p) :
    FS.read (FS.remove fs p) q = FS.read fs q := by
  simp [FS.read, FS.remove, h]

theorem FS.applyEvs_nil (fs : FS) : FS.applyEvs fs [] = fs := rfl

theorem FS.applyEvs_append (fs : FS) (a b : List Ev) :
    FS.applyEvs fs (a ++ b) = FS.applyEvs (FS.applyEvs fs a) b := by
  simp [FS.applyEvs, List.foldl_append]

theorem FS.applyEvs_cons (fs : FS) (ev : Ev) (evs : List Ev) :
    FS.applyEvs fs (ev :: evs) = FS.applyEvs (FS.applyEv fs ev) evs := rfl

theorem FS.read_applyEv_of_not_touches (fs : FS) (ev : Ev) (p : String)
    (h : Ev.touches ev p = false) :
    FS.read (FS.applyEv fs ev) p = FS.read fs p := by
  cases ev with
  | fsWrite q c =>
    simp only [Ev.touches, beq_eq_false_iff_ne] at h
    exact FS.read_write_ne fs q c p (by intro hqp; exact h hqp.symm)
  | fsRemove q =>
    simp only [Ev.touches, beq_eq_false_iff_ne] at h
    exact FS.read_remove_ne fs q p (by intro hqp; exact h hqp.symm)
  | fsRename s d =>
    simp only [Ev.touches, Bool.or_eq_false_iff, beq_eq_false_iff_ne] at h
    show FS.read (FS.rename fs s d) p = FS.read fs p
    unfold FS.rename
    cases hsrc : fs s with
    | none => rfl
    | some c =>
      rw [FS.read_write_ne _ _ _ _ (by intro hpd; exact h.2 hpd.symm)]
      exact FS.read_remove_ne _ _ _ (by intro hps; exact h.1 hps.symm)
  | httpGet u => rfl

theorem FS.read_applyEvs_of_not_touches (fs : FS) (evs : List Ev)
    (p : String) (h : ∀ ev ∈ evs, ev.touches p = false) :
    FS.read (FS.applyEvs fs evs) p = FS.read fs p := by
  induction evs generalizing fs with
  | nil => rfl
  | cons ev rest ih =>
    rw [FS.applyEvs_cons, ih _ (fun e he => h e (List.mem_cons_of_mem _ he)),
      FS.read_applyEv_of_not_touches _ _ _ (h ev (List.mem_cons_self _ _))]

/-! Lemmas about download_file and the update loop. -/

theorem entry_dl_ok_of_path (net : Net) (e : FileEntry) (rp : String)
    (hp : e.path = some rp) : entry_dl_ok net e = dl_status_ok net rp := by
  unfold entry_dl_ok
  rw [hp]

theorem dl_status_ok_iff (net : Net) (p : String) :
    dl_status_ok net p = true ↔
      ∃ c, net (RAW_BASE_URL ++ p) = HttpResp.resp 200 c := by
  unfold dl_status_ok
  cases h : net (RAW_BASE_URL ++ p) with
  | exc => simp
  | resp s b =>
    constructor
    · intro hs
      have hs2 : s = 200 := by simpa using hs
      subst hs2
      exact ⟨b, rfl⟩
    · rintro ⟨c, hc⟩
      injection hc with h1 h2
      subst h1
      simp

theorem download_file_of_ok (net : Net) (rp tp c : String)
    (h : net (RAW_BASE_URL ++ rp) = HttpResp.resp 200 c) :
    download_file net rp tp =
      ([Ev.httpGet (RAW_BASE_URL ++ rp), Ev.fsWrite tp c], true) := by
  unfold download_file
  rw [h]
  simp

theorem download_file_of_fail (net : Net) (rp tp : String)
    (h : dl_status_ok net rp = false) :
    download_file net rp tp = ([Ev.httpGet (RAW_BASE_URL ++ rp)], false) := by
  unfold download_file
  unfold dl_status_ok at h
  cases hn : net (RAW_BASE_URL ++ rp) with
  | exc => rfl
  | resp s b =>
    rw [hn] at h
    simp only at h
    simp [h]

theorem download_file_snd_eq (net : Net) (rp tp : String) :
    (download_file net rp tp).2 = dl_status_ok net rp := by
  unfold download_file dl_status_ok
  cases net (RAW_BASE_URL ++ rp) with
  | exc => rfl
  | resp s b =>
    by_cases h : (s == 200) = true
    · simp [h]
    · simp [Bool.eq_false_iff.mpr h]

/-- Every event the update loop emits is either an HTTP GET or a write to
one of the manifest's target paths; in particular the loop performs no
renames and no removes. -/
theorem update_loop_events (net : Net) (es : List FileEntry) :
    ∀ ev ∈ (update_loop net es).1,
      (∃ u, ev = Ev.httpGet u) ∨
      (∃ p c, ev = Ev.fsWrite p c ∧ p ∈ targetsOf es) := by
  induction es with
  | nil => intro ev h; cases h
  | cons e rest ih =>
    intro ev hev
    unfold update_loop at hev
    cases hp : e.path with
    | none => rw [hp] at hev; cases hev
    | some rp =>
      rw [hp] at hev
      simp only at hev
      have htgt : e.targetFor rp ∈ targetsOf (e :: rest) := by
        unfold targetsOf
        simp [hp]
      by_cases hok : (download_file net rp (e.targetFor rp)).2 = true
      · rw [if_pos hok] at hev
        rcases List.mem_append.mp hev with hin | hin
        · rcases (dl_status_ok_iff net rp).mp
            (by rw [← download_file_snd_eq net rp (e.targetFor rp)]; exact hok)
            with ⟨c, hc⟩
          rw [download_file_of_ok net rp (e.targetFor rp) c hc] at hin
          rcases List.mem_cons.mp hin with rfl | hin2
          · exact Or.inl ⟨_, rfl⟩
          rcases List.mem_cons.mp hin2 with rfl | hin3
          · exact Or.inr ⟨_, _, rfl, htgt⟩
          · exact absurd hin3 (List.not_mem_nil ev)
        · rcases ih ev hin with h1 | ⟨p, c, hpc, hmem⟩
          · exact Or.inl h1
          · refine Or.inr ⟨p, c, hpc, ?_⟩
            unfold targetsOf at hmem ⊢
            simp only [List.filterMap_cons, hp, Option.map_some]
            exact List.mem_cons_of_mem _ hmem
      · rw [if_neg hok] at hev
        have hfail : dl_status_ok net rp = false := by
          rw [← download_file_snd_eq net rp (e.targetFor rp)]
          exact Bool.eq_false_iff.mpr hok
        rw [download_file_of_fail net rp (e.targetFor rp) hfail] at hev
        rcases List.mem_cons.mp hev with rfl | hin2
        · exact Or.inl ⟨_, rfl⟩
        · exact absurd hin2 (List.not_mem_nil ev)

/-- Frame property of the download loop: a path that is no manifest
entry's target reads the same before and after the loop, whether or not
the loop succeeded. -/
theorem update_loop_frame (net : Net) (es : List FileEntry) (fs : FS)
    (p : String) (h : p ∉ targetsOf es) :
    FS.read (FS.applyEvs fs (update_loop net es).1) p = FS.read fs p := by
  apply FS.read_applyEvs_of_not_touches
  intro ev hev
  rcases update_loop_events net es ev hev with ⟨u, rfl⟩ | ⟨q, c, rfl, hq⟩
  · rfl
  · show (q == p) = false
    exact beq_eq_false_iff_ne.mpr (fun hqp => h (hqp ▸ hq))

/-- If every entry has a path and downloads with status 200, the loop
succeeds, and for every entry the loop both requested the entry's remote
URL and wrote the downloaded body to the entry's target path. -/
theorem update_loop_all_ok (net : Net) (es : List FileEntry)
    (h : ∀ e ∈ es, entry_dl_ok net e = true) :
    (update_loop net es).2 = true ∧
    ∀ e ∈ es, ∀ rp, e.path = some rp →
      Ev.httpGet (RAW_BASE_URL ++ rp) ∈ (update_loop net es).1 ∧
      ∃ c, net (RAW_BASE_URL ++ rp) = HttpResp.resp 200 c ∧
        Ev.fsWrite (e.targetFor rp) c ∈ (update_loop net es).1 := by
  induction es with
  | nil => exact ⟨rfl, fun e he => absurd he (List.not_mem_nil e)⟩
  | cons e rest ih =>
    have hhead := h e (List.mem_cons_self _ _)
    unfold entry_dl_ok at hhead
    cases hp : e.path with
    | none => rw [hp] at hhead; cases hhead
    | some rp =>
      rw [hp] at hhead
      rcases (dl_status_ok_iff net rp).mp hhead with ⟨c, hc⟩
      have hdl := download_file_of_ok net rp (e.targetFor rp) c hc
      have htail := ih (fun x hx => h x (List.mem_cons_of_mem _ hx))
      have hloop : update_loop net (e :: rest) =
          ((download_file net rp (e.targetFor rp)).1 ++
            (update_loop net rest).1, (update_loop net rest).2) := by
        conv_lhs => unfold update_loop
        rw [hp]
        simp only [hdl, if_true]
      constructor
      · rw [hloop]; exact htail.1
      · intro x hx rpx hpx
        rcases List.mem_cons.mp hx with rfl | hx2
        · rw [hp] at hpx
          injection hpx with hpx
          subst hpx
          rw [hloop]
          refine ⟨List.mem_append_left _ (by rw [hdl]; exact List.mem_cons_self _ _),
            c, hc, List.mem_append_left _ ?_⟩
          rw [hdl]
          exact List.mem_cons_of_mem _ (List.mem_cons_self _ _)
        · rcases htail.2 x hx2 rpx hpx with ⟨hget, c2, hc2, hwr⟩
          rw [hloop]
          exact ⟨List.mem_append_right _ hget, c2, hc2,
            List.mem_append_right _ hwr⟩

/-- If any entry of the list is bad or fails to download, the loop
returns False. -/
theorem update_loop_fail (net : Net) (es : List FileEntry)
    (h : ∃ e ∈ es, entry_dl_ok net e = false) :
    (update_loop net es).2 = false := by
  induction es with
  | nil => rcases h with ⟨e, he, _⟩; exact absurd he (List.not_mem_nil e)
  | cons e rest ih =>
    unfold update_loop
    cases hp : e.path with
    | none => rfl
    | some rp =>
      simp only
      by_cases hok : (download_file net rp (e.targetFor rp)).2 = true
      · rw [if_pos hok]
        simp only
        apply ih
        rcases h with ⟨x, hx, hxf⟩
        rcases List.mem_cons.mp hx with rfl | hx2
        · exfalso
          rw [download_file_snd_eq] at hok
          rw [entry_dl_ok_of_path net x rp hp, hok] at hxf
          cases hxf
        · exact ⟨x, hx2, hxf⟩
      · rw [if_neg hok]

/-- The converse: a successful loop means every entry downloaded OK. -/
theorem update_loop_ok_all (net : Net) (es : List FileEntry)
    (h : (update_loop net es).2 = true) :
    ∀ e ∈ es, entry_dl_ok net e = true := by
  intro e he
  by_cases hx : entry_dl_ok net e = true
  · exact hx
  · exact absurd h (by
      rw [update_loop_fail net es ⟨e, he, Bool.eq_false_iff.mpr hx⟩]
      exact Bool.false_ne_true)

/-! Lemmas about perform_update. -/

theorem perform_update_of_eq (net : Net) (fs : FS) (v : VersData)
    (h : v.versionOf = load_local_version fs) :
    perform_update net fs v = ([], UpdateResult.noUpdate) := by
  unfold perform_update
  simp [h]

theorem perform_update_of_fail (net : Net) (fs : FS) (v : VersData)
    (hver : v.versionOf ≠ load_local_version fs)
    (hfail : ∃ e ∈ v.files, entry_dl_ok net e = false) :
    perform_update net fs v =
      ((update_loop net v.files).1, UpdateResult.failed) := by
  have hne : v.files ≠ [] := by
    rcases hfail with ⟨e, he, _⟩
    intro hnil
    rw [hnil] at he
    exact absurd he (List.not_mem_nil e)
  have hie : v.files.isEmpty = false := by
    cases hfv : v.files with
    | nil => exact absurd hfv hne
    | cons a l => rfl
  have hloop := update_loop_fail net v.files hfail
  unfold perform_update
  simp [beq_eq_false_iff_ne.mpr hver, hie, hloop]

theorem perform_update_of_ok (net : Net) (fs : FS) (v : VersData)
    (hver : v.versionOf ≠ load_local_version fs)
    (hne : v.files ≠ [])
    (hok : ∀ e ∈ v.files, entry_dl_ok net e = true) :
    perform_update net fs v =
      ((update_loop net v.files).1 ++
        [Ev.fsWrite LOCAL_VERSION_FILE v.versionOf],
       UpdateResult.resetAfterUpdate) := by
  have hie : v.files.isEmpty = false := by
    cases hfv : v.files with
    | nil => exact absurd hfv hne
    | cons a l => rfl
  have hloop := (update_loop_all_ok net v.files hok).1
  unfold perform_update save_local_version
  simp [beq_eq_false_iff_ne.mpr hver, hie, hloop]

/-! Lemmas about control_poll.tick. -/

/-- When the persisted marker already equals the stripped declared
revision, tick takes no action and performs no events, whatever the
device id or membership is. -/
theorem tick_noAction_of_same_rev (data : CtrlRev) (fs : FS)
    (h : getLastRebootRev fs = pyStrip data.rev) :
    tick (some data) fs = ([], TickOutcome.noAction) := by
  unfold tick
  by_cases hmem :
      data.reboot_ids.contains (pyStrip (pollDeviceId fs)) = true
  · simp [hmem, h]
  · simp [hmem]
    intro hmem2 hne2 hdiff
    exact absurd h.symm hdiff

/-- A tick that takes no action leaves the filesystem unchanged, so the
whole remaining poll sequence fires zero reboots. -/
theorem tickFireCount_zero (doc : Option CtrlRev) (fs : FS) (n : Nat)
    (h : tick doc fs = ([], TickOutcome.noAction)) :
    tickFireCount doc n fs = 0 := by
  induction n with
  | zero => rfl
  | succ m ih =>
    unfold tickFireCount
    rw [h]
    simpa using ih

/-- Reading the persisted marker back right after _save_reboot_rev. -/
theorem getLastRebootRev_after_save (fs : FS) (rev : String) :
    getLastRebootRev (FS.applyEvs fs (saveRebootRev rev)) = pyStrip (pyStrip rev) := by
  unfold getLastRebootRev saveRebootRev
  rw [FS.applyEvs_cons, FS.applyEvs_cons, FS.applyEvs_nil]
  show pyStrip ((FS.read (FS.write (FS.write fs LAST_REBOOT_REV_FILE
    (pyStrip rev)) "local_version.txt" (pyStrip rev))
      LAST_REBOOT_REV_FILE).getD "")
      = pyStrip (pyStrip rev)
  rw [FS.read_write_ne _ _ _ _ (by decide), FS.read_write_self]
  rfl

/-- The first poll of a changed revision targeting this device persists
the revision and fires the reboot. -/
theorem tick_fires_first (data : CtrlRev) (fs : FS)
    (hmem : data.reboot_ids.contains (pyStrip (pollDeviceId fs)) = true)
    (hne : pyStrip data.rev ≠ "")
    (hdiff : pyStrip data.rev ≠ getLastRebootRev fs)
    (hidem : pyStrip (pyStrip data.rev) = pyStrip data.rev) :
    tick (some data) fs = (saveRebootRev (pyStrip data.rev),
      TickOutcome.rebooted) := by
  have hsave :
      getLastRebootRev (FS.applyEvs fs (saveRebootRev (pyStrip data.rev)))
      = pyStrip data.rev := by
    rw [getLastRebootRev_after_save, hidem, hidem]
  unfold tick
  simp [hne, hdiff, hsave]
  simpa using hmem


/-! Claim theorems. -/

/-- C1 counterexample: take the two-entry manifest versA on the fixture
filesystem, with a network where the second entry helper.py answers 404.
The run aborts with a failure result, as the claim says — but
app_main.py, a target file named in the manifest and downloaded before
the failure, has been overwritten in place, so not every target file is
byte-identical to its pre-run contents. -/
theorem C1_counterexample :
    (perform_update netFailHelper fsA versA).2 = UpdateResult.failed ∧
    FS.read fsA "app_main.py" = some "OLD-APP" ∧
    FS.read (FS.applyEvs fsA (perform_update netFailHelper fsA versA).1)
      "app_main.py" = some "NEW" := by
  decide

/-- C1 (amended): for every manifest and every engine run needing an
update in which some file download fails, the run aborts with a failure
result, and every file whose path is not the target of a manifest entry
is byte-identical to before the attempt; target files of entries
processed before the failing one may however already have been
overwritten in place. -/
theorem C1_abort_keeps_nontargets (net : Net) (fs : FS) (v : VersData)
    (hver : v.versionOf ≠ load_local_version fs)
    (hfail : ∃ e ∈ v.files, entry_dl_ok net e = false) :
    (perform_update net fs v).2 = UpdateResult.failed ∧
    ∀ p, p ∉ targetsOf v.files →
      FS.read (FS.applyEvs fs (perform_update net fs v).1) p =
        FS.read fs p := by
  have h := perform_update_of_fail net fs v hver hfail
  refine ⟨by rw [h], fun p hp => ?_⟩
  rw [h]
  exact update_loop_frame net v.files fs p hp

/-- C1 witness: the amended claim at the concrete failing run. -/
theorem C1_witness :
    (perform_update netFailHelper fsA versA).2 = UpdateResult.failed ∧
    ∀ p, p ∉ targetsOf versA.files →
      FS.read (FS.applyEvs fsA
        (perform_update netFailHelper fsA versA).1) p = FS.read fsA p :=
  C1_abort_keeps_nontargets netFailHelper fsA versA (by decide) (by decide)

/-- C2 counterexample: the successful replacement of app_main.py consists
of one HTTP GET followed by one direct write to the target — the trace
contains no rename at all, so no remove-stale-backup /
rename-target-to-.bak / rename-.new-to-target protocol is executed and
no backup copy ever exists. -/
theorem C2_counterexample :
    download_file netOK "app_main.py" "app_main.py" =
      ([Ev.httpGet (RAW_BASE_URL ++ "app_main.py"),
        Ev.fsWrite "app_main.py" "NEW"], true) ∧
    (download_file netOK "app_main.py" "app_main.py").1.all
      (fun ev => !ev.isRename) = true := by
  decide

/-- C2 (amended): each target file is replaced by a single direct write
of the downloaded bytes to the target path; the replacement performs no
rename, creates no backup and stages no .new file, so nothing guarantees
a surviving old-or-new copy against a crash during the write. -/
theorem C2_swap_is_direct_write (net : Net) (rp tp c : String)
    (h : net (RAW_BASE_URL ++ rp) = HttpResp.resp 200 c) :
    download_file net rp tp =
      ([Ev.httpGet (RAW_BASE_URL ++ rp), Ev.fsWrite tp c], true) ∧
    ∀ ev ∈ (download_file net rp tp).1, ev.isRename = false := by
  have hd := download_file_of_ok net rp tp c h
  refine ⟨hd, fun ev hev => ?_⟩
  rw [hd] at hev
  rcases List.mem_cons.mp hev with rfl | hev2
  · rfl
  rcases List.mem_cons.mp hev2 with rfl | hev3
  · rfl
  · exact absurd hev3 (List.not_mem_nil ev)

/-- C2 witness: the amended claim at a concrete successful download. -/
theorem C2_witness :
    download_file netOK "helper.py" "helper.py" =
      ([Ev.httpGet (RAW_BASE_URL ++ "helper.py"),
        Ev.fsWrite "helper.py" "NEW"], true) ∧
    ∀ ev ∈ (download_file netOK "helper.py" "helper.py").1,
      ev.isRename = false :=
  C2_swap_is_direct_write netOK "helper.py" "helper.py" "NEW" (by decide)

/-- C3 counterexample: versProt lists bootloader.py — the update engine's
own code, a member of the spec's protected set — as a target, and the
engine downloads it and overwrites it anyway. -/
theorem C3_counterexample :
    "bootloader.py" ∈ spec_protected_set ∧
    Ev.httpGet (RAW_BASE_URL ++ "bootloader.py")
      ∈ (perform_update netOK fsA versProt).1 ∧
    FS.read fsA "bootloader.py" = some "OLD-BOOT" ∧
    FS.read (FS.applyEvs fsA (perform_update netOK fsA versProt).1)
      "bootloader.py" = some "NEW" := by
  decide

/-- C3 (amended): perform_update applies no protected-set filter: when an
update is needed and every download succeeds, every entry of the
manifest that has a remote path — whatever its target, including members
of the spec's protected set — is downloaded from that remote path and
its body is written to its target path. -/
theorem C3_no_protected_filter (net : Net) (fs : FS) (v : VersData)
    (hver : v.versionOf ≠ load_local_version fs)
    (hne : v.files ≠ [])
    (hok : ∀ e ∈ v.files, entry_dl_ok net e = true) :
    ∀ e ∈ v.files, ∀ rp, e.path = some rp →
      Ev.httpGet (RAW_BASE_URL ++ rp) ∈ (perform_update net fs v).1 ∧
      ∃ c, net (RAW_BASE_URL ++ rp) = HttpResp.resp 200 c ∧
        Ev.fsWrite (e.targetFor rp) c ∈ (perform_update net fs v).1 := by
  have hpu := perform_update_of_ok net fs v hver hne hok
  have hall := (update_loop_all_ok net v.files hok).2
  intro e he rp hp
  rcases hall e he rp hp with ⟨hget, c, hc, hwr⟩
  rw [hpu]
  exact ⟨List.mem_append_left _ hget, c, hc, List.mem_append_left _ hwr⟩

/-- C3 witness: the amended claim at the concrete protected-target run,
instantiated at the bootloader.py entry. -/
theorem C3_witness :
    Ev.httpGet (RAW_BASE_URL ++ "bootloader.py")
      ∈ (perform_update netOK fsA versProt).1 ∧
    ∃ c, netOK (RAW_BASE_URL ++ "bootloader.py") = HttpResp.resp 200 c ∧
      Ev.fsWrite (FileEntry.targetFor
          { path := some "bootloader.py", target := none } "bootloader.py") c
        ∈ (perform_update netOK fsA versProt).1 :=
  C3_no_protected_filter netOK fsA versProt (by decide) (by decide)
    (by decide) { path := some "bootloader.py", target := none } (by decide)
    "bootloader.py" (by decide)

/-- C4 counterexample: bootloader.check_remote_commands performs no
content-hash comparison: with the device listed in reboot_ids, polling
the identical control document twice fires the reboot action both times,
and the first poll persists nothing (its event trace contains no
filesystem mutation at all). -/
theorem C4_counterexample :
    (check_remote_commands "0000" (some ctrlReboot) fsA).2 =
      CtrlOutcome.rebooted ∧
    (check_remote_commands "0000" (some ctrlReboot)
      (FS.applyEvs fsA
        (check_remote_commands "0000" (some ctrlReboot) fsA).1)).2 =
      CtrlOutcome.rebooted ∧
    (check_remote_commands "0000" (some ctrlReboot) fsA).1.all
      (fun ev => !ev.isFsMutation) = true := by
  decide

/-- C4 (amended): bootloader.check_remote_commands de-duplicates nothing
and re-fires on every poll; the loop prevention lives in
control_poll.tick, which compares the document's declared rev field
(stripped) to the persisted marker, returns no action when they are
equal, and persists the new value (verifying the write) before forcing
the reset — so polling an unchanged document any number N ≥ 1 of times
fires the reboot exactly once. tick implements only the reboot command,
not force-update. -/
theorem C4_tick_fires_exactly_once (data : CtrlRev) (fs : FS) (n : Nat)
    (hmem : data.reboot_ids.contains (pyStrip (pollDeviceId fs)) = true)
    (hne : pyStrip data.rev ≠ "")
    (hdiff : pyStrip data.rev ≠ getLastRebootRev fs)
    (hidem : pyStrip (pyStrip data.rev) = pyStrip data.rev) :
    tickFireCount (some data) (n + 1) fs = 1 := by
  have hfirst := tick_fires_first data fs hmem hne hdiff hidem
  have hafter :
      getLastRebootRev (FS.applyEvs fs (saveRebootRev (pyStrip data.rev)))
        = pyStrip data.rev := by
    rw [getLastRebootRev_after_save, hidem, hidem]
  unfold tickFireCount
  rw [hfirst]
  simp only
  rw [tickFireCount_zero (some data) _ n
    (tick_noAction_of_same_rev data _ hafter)]
  simp

/-- C4 witness: the amended claim on a concrete document polled twice. -/
theorem C4_witness : tickFireCount (some ctrlRev1) (1 + 1) fsA = 1 :=
  C4_tick_fires_exactly_once ctrlRev1 fsA 1 (by decide) (by decide)
    (by decide) (by decide)

/-- C5 counterexample: a fully successful update run commits the new
version with one direct write to local_version.txt as its final event —
no LocalVersion.new staging file is written and the run contains no
rename, contrary to the claimed write-temp-then-rename commit. -/
theorem C5_counterexample :
    (perform_update netOK fsA versA).1 =
      [Ev.httpGet (RAW_BASE_URL ++ "app_main.py"),
       Ev.fsWrite "app_main.py" "NEW",
       Ev.httpGet (RAW_BASE_URL ++ "helper.py"),
       Ev.fsWrite "helper.py" "NEW",
       Ev.fsWrite LOCAL_VERSION_FILE "1.0.1"] ∧
    (perform_update netOK fsA versA).1.all
      (fun ev => !ev.isRename) = true := by
  decide

/-- C5 (amended): for a manifest that does not itself target the version
marker, LocalVersion is advanced to the manifest's version only when
every file entry downloaded successfully, and the advancing write is the
final event of the run; a run that does not end in the update reset
leaves the version marker byte-identical. The commit, however, is a
single direct write — the run performs no rename and stages no temp
file. -/
theorem C5_version_advance (net : Net) (fs : FS) (v : VersData)
    (hver : v.versionOf ≠ load_local_version fs)
    (hne : v.files ≠ [])
    (hnp : LOCAL_VERSION_FILE ∉ targetsOf v.files) :
    ((perform_update net fs v).2 = UpdateResult.resetAfterUpdate →
      (∀ e ∈ v.files, entry_dl_ok net e = true) ∧
      (perform_update net fs v).1 =
        (update_loop net v.files).1 ++
          [Ev.fsWrite LOCAL_VERSION_FILE v.versionOf] ∧
      FS.read (FS.applyEvs fs (perform_update net fs v).1)
        LOCAL_VERSION_FILE = some v.versionOf) ∧
    ((perform_update net fs v).2 ≠ UpdateResult.resetAfterUpdate →
      FS.read (FS.applyEvs fs (perform_update net fs v).1)
        LOCAL_VERSION_FILE = FS.read fs LOCAL_VERSION_FILE) ∧
    ∀ ev ∈ (perform_update net fs v).1, ev.isRename = false := by
  have hloopR : ∀ ev ∈ (update_loop net v.files).1, ev.isRename = false := by
    intro ev hev
    rcases update_loop_events net v.files ev hev with ⟨u, rfl⟩ | ⟨p, c, rfl, _⟩
      <;> rfl
  by_cases hok : ∀ e ∈ v.files, entry_dl_ok net e = true
  · have hpu := perform_update_of_ok net fs v hver hne hok
    have hsnd : (perform_update net fs v).2 = UpdateResult.resetAfterUpdate :=
      by rw [hpu]
    refine ⟨fun _ => ⟨hok, by rw [hpu], ?_⟩,
      fun hcon => absurd hsnd hcon, ?_⟩
    · rw [hpu]
      show FS.read (FS.applyEvs fs ((update_loop net v.files).1 ++
        [Ev.fsWrite LOCAL_VERSION_FILE v.versionOf])) LOCAL_VERSION_FILE
          = some v.versionOf
      rw [FS.applyEvs_append]
      exact FS.read_write_self _ _ _
    · intro ev hev
      rw [hpu] at hev
      rcases List.mem_append.mp hev with h1 | h1
      · exact hloopR ev h1
      · rcases List.mem_cons.mp h1 with rfl | h2
        · rfl
        · exact absurd h2 (List.not_mem_nil ev)
  · push_neg at hok
    rcases hok with ⟨e, he, hbad⟩
    have hfail : ∃ x ∈ v.files, entry_dl_ok net x = false :=
      ⟨e, he, Bool.eq_false_iff.mpr hbad⟩
    have hpu := perform_update_of_fail net fs v hver hfail
    have hsnd : (perform_update net fs v).2 = UpdateResult.failed := by
      rw [hpu]
    refine ⟨fun hcon => absurd (hsnd.symm.trans hcon) (by decide),
      fun _ => ?_, ?_⟩
    · rw [hpu]
      exact update_loop_frame net v.files fs LOCAL_VERSION_FILE hnp
    · intro ev hev
      rw [hpu] at hev
      exact hloopR ev hev

/-- C5 witness: the amended claim at the concrete successful run. -/
theorem C5_witness :
    ((perform_update netOK fsA versA).2 = UpdateResult.resetAfterUpdate →
      (∀ e ∈ versA.files, entry_dl_ok netOK e = true) ∧
      (perform_update netOK fsA versA).1 =
        (update_loop netOK versA.files).1 ++
          [Ev.fsWrite LOCAL_VERSION_FILE versA.versionOf] ∧
      FS.read (FS.applyEvs fsA (perform_update netOK fsA versA).1)
        LOCAL_VERSION_FILE = some versA.versionOf) ∧
    ((perform_update netOK fsA versA).2 ≠ UpdateResult.resetAfterUpdate →
      FS.read (FS.applyEvs fsA (perform_update netOK fsA versA).1)
        LOCAL_VERSION_FILE = FS.read fsA LOCAL_VERSION_FILE) ∧
    ∀ ev ∈ (perform_update netOK fsA versA).1, ev.isRename = false :=
  C5_version_advance netOK fsA versA (by decide) (by decide) (by decide)

/-- C6: when the fetched manifest's version equals the persisted local
version, the boot run performs exactly one network fetch (versions.json)
and no filesystem mutation — the filesystem after the run is the one
before — and control passes to the display application; consequently a
second run on the resulting filesystem is identical, performing zero
filesystem writes. (The engine still reads the local version marker; the
trace records mutations and requests.) -/
theorem C6_noop_when_version_matches (w : String × String) (net : Net)
    (parse : String → Option VersData) (fs : FS) (vd : VersData)
    (body : String)
    (hnet : net VERSIONS_URL = HttpResp.resp 200 body)
    (hparse : parse body = some vd)
    (hver : vd.versionOf = load_local_version fs) :
    bl_main (some w) true net parse fs =
      ([Ev.httpGet VERSIONS_URL], BootOutcome.runApp) ∧
    FS.applyEvs fs (bl_main (some w) true net parse fs).1 = fs ∧
    bl_main (some w) true net parse
      (FS.applyEvs fs (bl_main (some w) true net parse fs).1) =
      bl_main (some w) true net parse fs := by
  have hfetch : fetch_versions_json net parse =
      ([Ev.httpGet VERSIONS_URL], some vd) := by
    unfold fetch_versions_json
    rw [hnet]
    simp [hparse]
  have hfs0 : FS.applyEvs fs [Ev.httpGet VERSIONS_URL] = fs := rfl
  have hres := perform_update_of_eq net fs vd hver
  have hmain : bl_main (some w) true net parse fs =
      ([Ev.httpGet VERSIONS_URL], BootOutcome.runApp) := by
    unfold bl_main
    rw [hfetch]
    simp only [Bool.not_true]
    rw [show FS.applyEvs fs [Ev.httpGet VERSIONS_URL] = fs from rfl, hres]
    simp
  refine ⟨hmain, by rw [hmain]; exact hfs0, ?_⟩
  rw [hmain]
  show bl_main (some w) true net parse (FS.applyEvs fs [Ev.httpGet VERSIONS_URL])
    = ([Ev.httpGet VERSIONS_URL], BootOutcome.runApp)
  rw [hfs0]
  exact hmain

/-- C6 witness: the no-update path at a concrete manifest and
filesystem. -/
theorem C6_witness :
    bl_main (some ("ssid", "pw")) true netSame parseSame fsA =
      ([Ev.httpGet VERSIONS_URL], BootOutcome.runApp) ∧
    FS.applyEvs fsA
      (bl_main (some ("ssid", "pw")) true netSame parseSame fsA).1 = fsA ∧
    bl_main (some ("ssid", "pw")) true netSame parseSame
      (FS.applyEvs fsA
        (bl_main (some ("ssid", "pw")) true netSame parseSame fsA).1) =
      bl_main (some ("ssid", "pw")) true netSame parseSame fsA :=
  C6_noop_when_version_matches ("ssid", "pw") netSame parseSame fsA
    versSame "BODY-SAME" (by decide) (by decide) (by decide)

/-- C7 counterexample: with a staged bootloader.py.next present, the
stager's entire event trace is a single rename onto bootloader.py — the
current engine file is NOT backed up first: after the step the old code
survives nowhere (no bootloader.py.bak exists), though the new code is
in place and the reset fires. -/
theorem C7_counterexample :
    apply_staged_bootloader_if_present fsStaged =
      ([Ev.fsRename "bootloader.py.next" "bootloader.py"], true) ∧
    FS.read (FS.applyEvs fsStaged
      (apply_staged_bootloader_if_present fsStaged).1) "bootloader.py" =
        some "NEW-BOOT" ∧
    FS.read (FS.applyEvs fsStaged
      (apply_staged_bootloader_if_present fsStaged).1)
        "bootloader.py.bak" = none := by
  decide

/-- C7 (amended): on every boot, before any other logic, if a staged
replacement of the engine exists at bootloader.py.next it is atomically
renamed onto bootloader.py — without backing up the current engine
file — and the device immediately resets: the rest of main never runs
and contributes nothing to the trace or the outcome. -/
theorem C7_staged_engine_applied_first
    (rest : FS → List Ev × BnewOutcome) (fs : FS) (c : String)
    (h : FS.read fs "bootloader.py.next" = some c) :
    bnew_main rest fs =
      ([Ev.fsRename "bootloader.py.next" "bootloader.py"],
        BnewOutcome.stagedReset) ∧
    FS.read (FS.applyEvs fs (bnew_main rest fs).1) "bootloader.py" =
      some c := by
  have happ : apply_staged_bootloader_if_present fs =
      ([Ev.fsRename "bootloader.py.next" "bootloader.py"], true) := by
    unfold apply_staged_bootloader_if_present
    rw [h]
    rfl
  have hmain : bnew_main rest fs =
      ([Ev.fsRename "bootloader.py.next" "bootloader.py"],
        BnewOutcome.stagedReset) := by
    unfold bnew_main
    rw [happ]
    rfl
  refine ⟨hmain, ?_⟩
  rw [hmain]
  show FS.read (FS.rename fs "bootloader.py.next" "bootloader.py")
    "bootloader.py" = some c
  unfold FS.rename
  have h2 : fs "bootloader.py.next" = some c := h
  rw [h2]
  exact FS.read_write_self _ _ _

/-- C7 witness: the amended claim at the concrete staged filesystem. -/
theorem C7_witness :
    bnew_main (fun _ => ([], BnewOutcome.continued)) fsStaged =
      ([Ev.fsRename "bootloader.py.next" "bootloader.py"],
        BnewOutcome.stagedReset) ∧
    FS.read (FS.applyEvs fsStaged
      (bnew_main (fun _ => ([], BnewOutcome.continued)) fsStaged).1)
      "bootloader.py" = some "NEW-BOOT" :=
  C7_staged_engine_applied_first (fun _ => ([], BnewOutcome.continued))
    fsStaged "NEW-BOOT" (by decide)

/-- C8 counterexample: the entry with remote path lib/foo.py and no
target field is downloaded and written to lib/foo.py — the full remote
path — although its last path segment is foo.py; the two differ. -/
theorem C8_counterexample :
    FileEntry.targetFor { path := some "lib/foo.py", target := none }
      "lib/foo.py" = "lib/foo.py" ∧
    spec_last_segment "lib/foo.py" = "foo.py" ∧
    update_loop netOK [{ path := some "lib/foo.py", target := none }] =
      ([Ev.httpGet (RAW_BASE_URL ++ "lib/foo.py"),
        Ev.fsWrite "lib/foo.py" "NEW"], true) ∧
    ("lib/foo.py" : String) ≠ "foo.py" := by
  decide

/-- C8 (amended): a manifest entry without a target field defaults its
target to the entry's FULL remote path (entry.get("target",
remote_path)), not to the last path segment; downloading such an entry
writes the body to that full remote path. -/
theorem C8_default_target_is_remote_path (net : Net) (e : FileEntry)
    (rp c : String) (hp : e.path = some rp) (ht : e.target = none)
    (hc : net (RAW_BASE_URL ++ rp) = HttpResp.resp 200 c) :
    e.targetFor rp = rp ∧
    update_loop net [e] =
      ([Ev.httpGet (RAW_BASE_URL ++ rp), Ev.fsWrite rp c], true) := by
  have htf : e.targetFor rp = rp := by
    unfold FileEntry.targetFor
    rw [ht]
    rfl
  refine ⟨htf, ?_⟩
  unfold update_loop
  rw [hp]
  simp only [htf, download_file_of_ok net rp rp c hc]
  rfl

/-- C8 witness: the amended claim at the concrete lib/foo.py entry. -/
theorem C8_witness :
    FileEntry.targetFor { path := some "lib/foo.py", target := none }
      "lib/foo.py" = "lib/foo.py" ∧
    update_loop netOK [{ path := some "lib/foo.py", target := none }] =
      ([Ev.httpGet (RAW_BASE_URL ++ "lib/foo.py"),
        Ev.fsWrite "lib/foo.py" "NEW"], true) :=
  C8_default_target_is_remote_path netOK
    { path := some "lib/foo.py", target := none } "lib/foo.py" "NEW"
    (by decide) (by decide) (by decide)

/-- C9: whenever the versions.json fetch yields a non-200 status, a body
the JSON parser rejects, or a raised network exception,
fetch_versions_json returns None and main treats it as no update
available: the boot run performs that one fetch only, leaves the
filesystem untouched, and falls through to running the display
application — the failure is never fatal. -/
theorem C9_fetch_failure_recovered (w : String × String) (net : Net)
    (parse : String → Option VersData) (fs : FS)
    (h : fetch_fails net parse = true) :
    (fetch_versions_json net parse).2 = none ∧
    bl_main (some w) true net parse fs =
      ([Ev.httpGet VERSIONS_URL], BootOutcome.runApp) ∧
    FS.applyEvs fs (bl_main (some w) true net parse fs).1 = fs := by
  have hnone : (fetch_versions_json net parse).2 = none := by
    unfold fetch_versions_json
    unfold fetch_fails at h
    cases hn : net VERSIONS_URL with
    | exc => rfl
    | resp s b =>
      rw [hn] at h
      simp only at h ⊢
      by_cases hs : (s == 200) = true
      · rw [hs] at h
        simp only [Bool.not_true, Bool.false_or] at h
        simp [hs, Option.isNone_iff_eq_none.mp h]
      · simp [Bool.eq_false_iff.mpr hs]
  have hfetch : fetch_versions_json net parse =
      ([Ev.httpGet VERSIONS_URL], none) := by
    have hsplit : fetch_versions_json net parse =
        ([Ev.httpGet VERSIONS_URL], (fetch_versions_json net parse).2) := rfl
    rw [hsplit, hnone]
  have hmain : bl_main (some w) true net parse fs =
      ([Ev.httpGet VERSIONS_URL], BootOutcome.runApp) := by
    unfold bl_main
    rw [hfetch]
    rfl
  refine ⟨hnone, hmain, ?_⟩
  rw [hmain]
  rfl

/-- C9 witness: the recovered-failure path at a concrete 404 network. -/
theorem C9_witness :
    (fetch_versions_json net404 parseSame).2 = none ∧
    bl_main (some ("ssid", "pw")) true net404 parseSame fsA =
      ([Ev.httpGet VERSIONS_URL], BootOutcome.runApp) ∧
    FS.applyEvs fsA
      (bl_main (some ("ssid", "pw")) true net404 parseSame fsA).1 = fsA :=
  C9_fetch_failure_recovered ("ssid", "pw") net404 parseSame fsA (by decide)

/-- C10: when the control poll finds the device id in force_update_ids
and the reboot branch did not fire, check_remote_commands deletes the
local version marker and resets; on the next boot the local version
loads as "0.0.0", so any manifest whose version differs from "0.0.0"
re-enters the update path and (all downloads succeeding) re-downloads
every listed file. -/
theorem C10_force_update_redownloads (hwId id : String)
    (ctrl : ControlDoc) (net : Net) (fs : FS) (v : VersData)
    (hid : FS.read fs DEVICE_ID_FILE = some id)
    (hidt : pyStrip id = id) (hidne : id ≠ "")
    (hnr : ctrl.reboot_ids.contains id = false)
    (hfu : ctrl.force_update_ids.contains id = true)
    (hver : v.versionOf ≠ "0.0.0")
    (hne : v.files ≠ [])
    (hok : ∀ e ∈ v.files, entry_dl_ok net e = true) :
    (check_remote_commands hwId (some ctrl) fs).2 =
      CtrlOutcome.forceUpdated ∧
    load_local_version
      (FS.applyEvs fs (check_remote_commands hwId (some ctrl) fs).1) =
      "0.0.0" ∧
    (perform_update net
      (FS.applyEvs fs (check_remote_commands hwId (some ctrl) fs).1) v).2 =
      UpdateResult.resetAfterUpdate ∧
    ∀ e ∈ v.files, ∀ rp, e.path = some rp →
      Ev.httpGet (RAW_BASE_URL ++ rp) ∈
        (perform_update net
          (FS.applyEvs fs (check_remote_commands hwId (some ctrl) fs).1)
          v).1 := by
  have hgid : get_or_create_device_id hwId fs = ([], id) := by
    unfold get_or_create_device_id
    rw [hid]
    show (if pyStrip id ≠ "" then (([] : List Ev), pyStrip id)
      else ([Ev.fsWrite DEVICE_ID_FILE hwId], hwId)) = ([], id)
    rw [hidt]
    simp [hidne]
  have hchk : check_remote_commands hwId (some ctrl) fs =
      ([Ev.httpGet CONTROL_URL, Ev.fsRemove LOCAL_VERSION_FILE],
        CtrlOutcome.forceUpdated) := by
    unfold check_remote_commands
    rw [hgid]
    have hnr2 : id ∉ ctrl.reboot_ids := by simpa using hnr
    have hfu2 : id ∈ ctrl.force_update_ids := by simpa using hfu
    simp [hidne, hnr2, hfu2]
  have hload : load_local_version
      (FS.applyEvs fs (check_remote_commands hwId (some ctrl) fs).1) =
      "0.0.0" := by
    rw [hchk]
    show load_local_version (FS.remove fs LOCAL_VERSION_FILE) = "0.0.0"
    unfold load_local_version
    rw [FS.read_remove_self]
  have hver2 : v.versionOf ≠ load_local_version
      (FS.applyEvs fs (check_remote_commands hwId (some ctrl) fs).1) := by
    rw [hload]
    exact hver
  have hpu := perform_update_of_ok net
    (FS.applyEvs fs (check_remote_commands hwId (some ctrl) fs).1) v
    hver2 hne hok
  have hall := (update_loop_all_ok net v.files hok).2
  refine ⟨by rw [hchk], hload, by rw [hpu], fun e he rp hp => ?_⟩
  rcases hall e he rp hp with ⟨hget, _, _, _⟩
  rw [hpu]
  exact List.mem_append_left _ hget

/-- C10 witness: the force-update cycle at a concrete device and
manifest. -/
theorem C10_witness :
    (check_remote_commands "0000" (some ctrlForce) fsA).2 =
      CtrlOutcome.forceUpdated ∧
    load_local_version
      (FS.applyEvs fsA
        (check_remote_commands "0000" (some ctrlForce) fsA).1) = "0.0.0" ∧
    (perform_update netOK
      (FS.applyEvs fsA
        (check_remote_commands "0000" (some ctrlForce) fsA).1) versA).2 =
      UpdateResult.resetAfterUpdate ∧
    ∀ e ∈ versA.files, ∀ rp, e.path = some rp →
      Ev.httpGet (RAW_BASE_URL ++ rp) ∈
        (perform_update netOK
          (FS.applyEvs fsA
            (check_remote_commands "0000" (some ctrlForce) fsA).1)
          versA).1 :=
  C10_force_update_redownloads "0000" "DEV1" ctrlForce netOK fsA versA
    (by decide) (by decide) (by decide) (by decide) (by decide) (by decide)
    (by decide) (by decide)

end IrisMini
